import Mathlib

/-!
Shallow embedding of the transform-and-box-consistency engine of
`batch_gen.py` (class `BatchGenerator` and its module-level image helpers).

Conventions of the embedding:
* a ground-truth box row `(class_id, xmin, xmax, ymin, ymax)` becomes the
  structure `Box` with integer coordinates (the parser stores `int` fields and
  every transform either shifts by integers, clamps to integer bounds, or
  truncates to integers);
* an image is abstracted to its extents `(height, width)` for the pipeline
  claims, and to a list of pixel rows for the flip claim;
* Python floats (`include_thresh`, probability draws) are modelled as exact
  rationals;
* the `generate` method's per-image transform chain becomes the function
  `processImage`, which returns `Except PyError _` because the `brightness`,
  `flip` and `scale` branches call the tuple/float parameter that shadows the
  module-level helper functions, raising `TypeError` in Python.
-/

/-- A ground-truth bounding box, one row of a label array in
`box_output_format = [class_id, xmin, xmax, ymin, ymax]`. -/
structure Box where
  cls : ℤ
  xmin : ℤ
  xmax : ℤ
  ymin : ℤ
  ymax : ℤ
  deriving Repr, DecidableEq

/-- The box invariant of the spec: coordinates lie in
`[0, width) x [0, height)` and the box is well ordered. -/
def inBounds (w h : ℤ) (b : Box) : Prop :=
  0 ≤ b.xmin ∧ b.xmin ≤ b.xmax ∧ b.xmax < w ∧
  0 ≤ b.ymin ∧ b.ymin ≤ b.ymax ∧ b.ymax < h

instance (w h : ℤ) (b : Box) : Decidable (inBounds w h b) := by
  unfold inBounds; infer_instance

/-- Box area as computed at the clip-and-filter sites:
`(xmax - xmin) * (ymax - ymin)`. -/
def boxArea (b : Box) : ℤ :=
  (b.xmax - b.xmin) * (b.ymax - b.ymin)

/-- The survival test of every clip-and-filter site: keep the box when
`after_area > include_thresh * before_area` if `include_thresh == 0`, and when
`after_area >= include_thresh * before_area` otherwise (source lines 462-471,
597-606, 674-683). -/
def keep (thresh : ℚ) (beforeA afterA : ℤ) : Bool :=
  if thresh = 0 then
    decide ((thresh * (beforeA : ℚ)) < (afterA : ℚ))
  else
    decide ((thresh * (beforeA : ℚ)) ≤ (afterA : ℚ))

/-- Clip-and-filter over a whole box list: pair each box with its limited
(clamped) version, keep the pairs passing the area test, and return the
limited boxes.  This renders the numpy mask filtering
`batch_y[i] = batch_y[i][after_area > include_thresh * before_area]`
applied after an elementwise limiting step. -/
def limitFilter (f : Box → Box) (thresh : ℚ) (bs : List Box) : List Box :=
  (((bs.map fun b => (b, f b)).filter
      fun p => keep thresh (boxArea p.1) (boxArea p.2)).map Prod.snd)

/-- Elementwise coordinate limiting as done at the crop sites: first every
value below `0` is set to `0`, then every value at or above the extent `e` is
set to `e - 1` (source lines 517-524 and analogues). -/
def limitTo (e x : ℤ) : ℤ :=
  if e ≤ (if x < 0 then 0 else x) then e - 1 else (if x < 0 then 0 else x)

/-- Horizontal flip of an image, `cv2.flip(image, 1)`: every pixel row is
reversed (source `flip`, lines 65-72). -/
def flipImage {α : Type} (img : List (List α)) : List (List α) :=
  img.map List.reverse

/-- Box remap for a horizontal flip of an image of width `w`:
`new_xmin = w - old_xmax`, `new_xmax = w - old_xmin`, y untouched
(source line 424). -/
def flipBox (w : ℤ) (b : Box) : Box :=
  { b with xmin := w - b.xmax, xmax := w - b.xmin }

/-- Truncation toward zero of a rational, the behaviour of numpy's
`.astype(np.int)` on the exact value. -/
def truncRat (q : ℚ) : ℤ :=
  if 0 ≤ q then ⌊q⌋ else ⌈q⌉

/-- The resize step's coordinate map: multiply by the exact ratio
`newD / oldD` and truncate toward zero (source lines 687-689). -/
def scaleCoord (newD oldD x : ℤ) : ℤ :=
  truncRat ((x : ℚ) * ((newD : ℚ) / (oldD : ℚ)))

/-- Box remap of the resize step: `(xmin, xmax)` scaled by
`resize_w / img_width` and `(ymin, ymax)` by `resize_h / img_height`, each
truncated toward zero (source lines 685-689). -/
def resizeBox (newW newH oldW oldH : ℤ) (b : Box) : Box :=
  { cls := b.cls
    xmin := scaleCoord newW oldW b.xmin
    xmax := scaleCoord newW oldW b.xmax
    ymin := scaleCoord newH oldH b.ymin
    ymax := scaleCoord newH oldH b.ymax }

-- Basic facts about the pieces above.

theorem limitTo_nonneg (e x : ℤ) (he : 1 ≤ e) : 0 ≤ limitTo e x := by
  unfold limitTo
  split_ifs <;> omega

theorem limitTo_lt (e x : ℤ) (he : 1 ≤ e) : limitTo e x < e := by
  unfold limitTo
  split_ifs <;> omega

theorem limitTo_mono (e x y : ℤ) (h : x ≤ y) : limitTo e x ≤ limitTo e y := by
  unfold limitTo
  split_ifs <;> omega

theorem limitFilter_mem {f : Box → Box} {thresh : ℚ} {bs : List Box} {b : Box}
    (h : b ∈ limitFilter f thresh bs) : ∃ a ∈ bs, b = f a := by
  unfold limitFilter at h
  rcases List.mem_map.mp h with ⟨p, hp, hsnd⟩
  rcases List.mem_filter.mp hp with ⟨hpmem, _⟩
  rcases List.mem_map.mp hpmem with ⟨a, hamem, hpa⟩
  exact ⟨a, hamem, by rw [← hsnd, ← hpa]⟩

theorem truncRat_nonneg {q : ℚ} (h : 0 ≤ q) : 0 ≤ truncRat q := by
  unfold truncRat
  rw [if_pos h]
  exact Int.floor_nonneg.mpr h

theorem truncRat_lt_of_lt {q : ℚ} {n : ℤ} (h0 : 0 ≤ q) (h : q < (n : ℚ)) :
    truncRat q < n := by
  unfold truncRat
  rw [if_pos h0]
  exact Int.floor_lt.mpr h

theorem truncRat_mono {p q : ℚ} (h0 : 0 ≤ p) (h : p ≤ q) :
    truncRat p ≤ truncRat q := by
  unfold truncRat
  rw [if_pos h0, if_pos (le_trans h0 h)]
  exact Int.floor_le_floor h

theorem scaleCoord_bounds (newD oldD x : ℤ) (hnew : 1 ≤ newD) (hold : 1 ≤ oldD)
    (hx0 : 0 ≤ x) (hx1 : x < oldD) :
    0 ≤ scaleCoord newD oldD x ∧ scaleCoord newD oldD x < newD := by
  unfold scaleCoord
  have holdQ : (0 : ℚ) < (oldD : ℚ) := by exact_mod_cast hold
  have hnn : (0 : ℚ) ≤ (x : ℚ) * ((newD : ℚ) / (oldD : ℚ)) := by
    apply mul_nonneg
    · exact_mod_cast hx0
    · positivity
  constructor
  · exact truncRat_nonneg hnn
  · apply truncRat_lt_of_lt hnn
    rw [mul_div_assoc', div_lt_iff₀ holdQ]
    have hxq : (x : ℚ) < (oldD : ℚ) := by exact_mod_cast hx1
    have hnq : (0 : ℚ) < (newD : ℚ) := by exact_mod_cast hnew
    calc (x : ℚ) * (newD : ℚ) < (oldD : ℚ) * (newD : ℚ) := by
          exact mul_lt_mul_of_pos_right hxq hnq
      _ = (newD : ℚ) * (oldD : ℚ) := by ring

theorem scaleCoord_mono (newD oldD x y : ℤ) (hnew : 1 ≤ newD) (hold : 1 ≤ oldD)
    (hx0 : 0 ≤ x) (h : x ≤ y) :
    scaleCoord newD oldD x ≤ scaleCoord newD oldD y := by
  unfold scaleCoord
  have hr : (0 : ℚ) ≤ (newD : ℚ) / (oldD : ℚ) := by positivity
  have h0 : (0 : ℚ) ≤ (x : ℚ) * ((newD : ℚ) / (oldD : ℚ)) := by
    apply mul_nonneg
    · exact_mod_cast hx0
    · exact hr
  apply truncRat_mono h0
  apply mul_le_mul_of_nonneg_right _ hr
  exact_mod_cast h

/-- A low clamp as done by the numpy mask assignment `coords[coords < 0] = 0`. -/
def lowClamp (x : ℤ) : ℤ :=
  if x < 0 then 0 else x

/-- A high clamp as done by `coords[coords >= e] = e - 1`. -/
def highClamp (e x : ℤ) : ℤ :=
  if e ≤ x then e - 1 else x

/-- Shift of a box by `dx` horizontally and `dy` vertically, the coordinate
translation performed by the crop steps. -/
def shiftBox (dx dy : ℤ) (b : Box) : Box :=
  { b with xmin := b.xmin + dx, xmax := b.xmax + dx,
           ymin := b.ymin + dy, ymax := b.ymax + dy }

/-- Limiting of only the y coordinates into `[0, h)` (crop case where only the
vertical dimension is a true crop). -/
def limitY (h : ℤ) (b : Box) : Box :=
  { b with ymin := limitTo h b.ymin, ymax := limitTo h b.ymax }

/-- Limiting of only the x coordinates into `[0, w)`. -/
def limitX (w : ℤ) (b : Box) : Box :=
  { b with xmin := limitTo w b.xmin, xmax := limitTo w b.xmax }

/-- Limiting of both coordinate pairs, y first then x, as in the regular
random-crop case (source lines 514-524). -/
def limitXY (w h : ℤ) (b : Box) : Box :=
  limitX w (limitY h b)

/-- One random-crop trial (source lines 486-606): given current extents
`(h, w)`, the crop target `(ch, cw)` and the drawn origin `(cy, cx)`, return
the adjusted box list of the trial patch.  The four branches follow the sign
pattern of `y_range = h - ch` and `x_range = w - cw`: nonnegative means a true
crop (origin subtracted, coordinates limited), negative means canvas placement
(origin added, no limiting needed); the clip-and-filter step runs only when at
least one dimension is a true crop. -/
def cropTrial (ch cw : ℤ) (limit : Bool) (thresh : ℚ) (h w cy cx : ℤ)
    (boxes : List Box) : List Box :=
  if 0 ≤ h - ch then
    if 0 ≤ w - cw then
      if limit then
        limitFilter (limitXY cw ch) thresh (boxes.map (shiftBox (-cx) (-cy)))
      else boxes.map (shiftBox (-cx) (-cy))
    else
      if limit then
        limitFilter (limitY ch) thresh (boxes.map (shiftBox cx (-cy)))
      else boxes.map (shiftBox cx (-cy))
  else
    if 0 ≤ w - cw then
      if limit then
        limitFilter (limitX cw) thresh (boxes.map (shiftBox (-cx) cy))
      else boxes.map (shiftBox (-cx) cy)
    else
      boxes.map (shiftBox cx cy)

/-- Outcome of the random-crop retry loop for one image: number of performed
trials, the accepted `(height, width, boxes)` if any, and whether the image
was marked for removal from the batch. -/
structure CropOutcome where
  trials : ℕ
  accepted : Option (ℤ × ℤ × List Box)
  removed : Bool
  deriving Repr, DecidableEq

/-- The random-crop while loop of source lines 482-629, as recursion on the
number of still-allowed trials.  `counter` is `trial_counter`; `draws k` is
the pair `(crop_ymin, crop_xmin)` drawn at trial `k`.  A trial is accepted
immediately when `min_1_object == 0`, or when at least one box survives the
trial; when the trial limit is reached without acceptance the image is marked
for removal. -/
def cropLoopAux (ch cw : ℤ) (min1 maxT : ℕ) (limit : Bool) (thresh : ℚ)
    (draws : ℕ → ℤ × ℤ) (h w : ℤ) (boxes : List Box) :
    ℕ → ℕ → CropOutcome
  | counter, 0 => ⟨counter, none, false⟩
  | counter, remaining + 1 =>
    let patch := cropTrial ch cw limit thresh h w (draws counter).1
      (draws counter).2 boxes
    if min1 = 0 then ⟨counter + 1, some (ch, cw, patch), false⟩
    else if 0 < patch.length then ⟨counter + 1, some (ch, cw, patch), false⟩
    else if maxT ≤ counter + 1 then ⟨counter + 1, none, true⟩
    else cropLoopAux ch cw min1 maxT limit thresh draws h w boxes
      (counter + 1) remaining

/-- The whole retry loop, entered with `trial_counter = 0` and at most
`max_trials` iterations. -/
def cropLoop (ch cw : ℤ) (min1 maxT : ℕ) (limit : Bool) (thresh : ℚ)
    (draws : ℕ → ℤ × ℤ) (h w : ℤ) (boxes : List Box) : CropOutcome :=
  cropLoopAux ch cw min1 maxT limit thresh draws h w boxes 0 maxT

/-- The conditional clamping of the fixed-crop step (source lines 650-665):
each side is clamped only when something was cropped off that side, and the
high clamps use the already-updated extents `h1 = h - top - bottom`,
`w1 = w - left - right`. -/
def fixedCropClamp (t bt l r h1 w1 : ℤ) (b : Box) : Box :=
  let b1 := if 0 < t then
      { b with ymin := lowClamp b.ymin, ymax := lowClamp b.ymax } else b
  let b2 := if 0 < bt then
      { b1 with ymin := highClamp h1 b1.ymin, ymax := highClamp h1 b1.ymax }
    else b1
  let b3 := if 0 < l then
      { b2 with xmin := lowClamp b2.xmin, xmax := lowClamp b2.xmax } else b2
  if 0 < r then
    { b3 with xmin := highClamp w1 b3.xmin, xmax := highClamp w1 b3.xmax }
  else b3

/-- The box shift of the fixed-crop step (source lines 637-640): subtract the
top and left crop amounts, each only when positive. -/
def fixedCropShift (t l : ℤ) (b : Box) : Box :=
  let b1 := if 0 < t then { b with ymin := b.ymin - t, ymax := b.ymax - t }
    else b
  if 0 < l then { b1 with xmin := b1.xmin - l, xmax := b1.xmax - l } else b1

/-- The fixed-crop step (source lines 631-683): shift the boxes, shrink the
extents, and, when `limit_boxes`, clamp and clip-and-filter.  Returns the new
`(height, width, boxes)`. -/
def fixedCrop (t bt l r : ℤ) (limit : Bool) (thresh : ℚ) (h w : ℤ)
    (boxes : List Box) : ℤ × ℤ × List Box :=
  let shifted := boxes.map (fixedCropShift t l)
  let h1 := h - (t + bt)
  let w1 := w - (l + r)
  if limit then
    (h1, w1, limitFilter (fixedCropClamp t bt l r h1 w1) thresh shifted)
  else
    (h1, w1, shifted)

/-- The Python exceptions the generate loop can raise in the modelled region. -/
inductive PyError where
  | typeError : PyError
  | valueError : PyError
  deriving Repr, DecidableEq

/-- The augmentation options of `generate` that affect boxes or extents, plus
the two box-policy options.  `none` renders the Python default
`None`/`False` (falsy, branch skipped). -/
structure GenConfig where
  equalize : Bool
  brightness : Option (ℚ × ℚ × ℚ)
  flip : Option ℚ
  scale : Option (ℚ × ℚ × ℚ)
  random_crop : Option (ℤ × ℤ × ℕ × ℕ)
  crop : Option (ℤ × ℤ × ℤ × ℤ)
  resize : Option (ℤ × ℤ)
  gray : Bool
  limit_boxes : Bool
  include_thresh : ℚ

/-- The per-image random draws consumed by one pass through the transform
chain: the three uniform gate draws and, for each crop trial `k`, the drawn
`(crop_ymin, crop_xmin)`. -/
structure Draws where
  pBrightness : ℚ
  pFlip : ℚ
  pScale : ℚ
  cropDraws : ℕ → ℤ × ℤ

/-- Whether the brightness branch body runs (source lines 411-414): the
option is set (a tuple is truthy) and the draw satisfies `p >= 1 - prob`. -/
def brightnessTaken (cfg : GenConfig) (d : Draws) : Bool :=
  match cfg.brightness with
  | some (_, _, prob) => decide (1 - prob ≤ d.pBrightness)
  | none => false

/-- Whether the flip branch body runs (source lines 420-425): the option is a
nonzero float (zero is falsy in Python) and the draw satisfies
`p >= 1 - flip`. -/
def flipTaken (cfg : GenConfig) (d : Draws) : Bool :=
  match cfg.flip with
  | some f => decide (f ≠ 0) && decide (1 - f ≤ d.pFlip)
  | none => false

/-- Whether the scale branch body runs (source lines 427-432). -/
def scaleTaken (cfg : GenConfig) (d : Draws) : Bool :=
  match cfg.scale with
  | some (_, _, prob) => decide (1 - prob ≤ d.pScale)
  | none => false

/-- The running per-image state threaded through the transform chain:
`img_height`, `img_width`, the label rows, and whether the image has been put
on `batch_items_to_remove`. -/
structure PipeState where
  h : ℤ
  w : ℤ
  boxes : List Box
  removed : Bool
  deriving Repr, DecidableEq

/-- The commit step of the crop loop (source lines 609-629): on acceptance
the patch extents and boxes replace the state; otherwise image, boxes and
extents stay as they were; either way a removal mark is recorded when the
loop set one. -/
def applyCropOutcome (st : PipeState) (out : CropOutcome) : PipeState :=
  match out.accepted with
  | some (h1, w1, bs1) => ⟨h1, w1, bs1, st.removed || out.removed⟩
  | none => ⟨st.h, st.w, st.boxes, st.removed || out.removed⟩

/-- The random-crop stage of the chain (source lines 473-629): run the retry
loop and commit its outcome. -/
def stageRandomCrop (cfg : GenConfig) (d : Draws) (st : PipeState) : PipeState :=
  match cfg.random_crop with
  | none => st
  | some (ch, cw, min1, maxT) =>
    applyCropOutcome st (cropLoop ch cw min1 maxT cfg.limit_boxes
      cfg.include_thresh d.cropDraws st.h st.w st.boxes)

/-- The fixed-crop stage of the chain (source lines 631-683). -/
def stageFixedCrop (cfg : GenConfig) (st : PipeState) : PipeState :=
  match cfg.crop with
  | none => st
  | some (t, bt, l, r) =>
    let out := fixedCrop t bt l r cfg.limit_boxes cfg.include_thresh
      st.h st.w st.boxes
    ⟨out.1, out.2.1, out.2.2, st.removed⟩

/-- The resize stage of the chain (source lines 685-689): every box is mapped
through the exact-ratio truncating remap; the new extents are the requested
`(width, height)`. -/
def stageResize (cfg : GenConfig) (st : PipeState) : PipeState :=
  match cfg.resize with
  | none => st
  | some (rw, rh) =>
    ⟨rh, rw, st.boxes.map (resizeBox rw rh st.w st.h), st.removed⟩

/-- The whole per-image transform chain of `generate` (source lines 402-692),
in source order: equalize touches pixels only; the brightness, flip and scale
branches, when their probability gate fires, call the tuple/float parameter
that shadows the module-level helper of the same name and therefore raise
`TypeError`; then random crop, fixed crop and resize update extents and
boxes; gray touches pixels only. -/
def processImage (cfg : GenConfig) (d : Draws) (h w : ℤ) (boxes : List Box) :
    Except PyError PipeState :=
  if brightnessTaken cfg d then .error .typeError
  else if flipTaken cfg d then .error .typeError
  else if scaleTaken cfg d then .error .typeError
  else .ok (stageResize cfg (stageFixedCrop cfg
    (stageRandomCrop cfg d ⟨h, w, boxes, false⟩)))

/-- Wellformedness of the geometry configuration relative to the incoming
image extents: positive extents, positive crop-patch extents, nonnegative
fixed-crop margins that leave a positive remainder (also of the crop patch,
since fixed crop runs after random crop), and positive resize targets. -/
def ConfigOK (cfg : GenConfig) (h w : ℤ) : Prop :=
  1 ≤ h ∧ 1 ≤ w ∧
  (match cfg.random_crop with
   | some (ch, cw, _, _) => 1 ≤ ch ∧ 1 ≤ cw
   | none => True) ∧
  (match cfg.crop with
   | some (t, bt, l, r) =>
     0 ≤ t ∧ 0 ≤ bt ∧ 0 ≤ l ∧ 0 ≤ r ∧ t + bt < h ∧ l + r < w ∧
     (match cfg.random_crop with
      | some (ch, cw, _, _) => t + bt < ch ∧ l + r < cw
      | none => True)
   | none => True) ∧
  (match cfg.resize with
   | some (rw, rh) => 1 ≤ rw ∧ 1 ≤ rh
   | none => True)

/-- The support of the crop-origin distribution: `np.random.randint(0, k + 1)`
draws from `[0, k]` where `k` is `y_range`/`x_range` when nonnegative and its
negation otherwise, so every draw lies in `[0, |range|]`. -/
def DrawsOK (cfg : GenConfig) (d : Draws) (h w : ℤ) : Prop :=
  match cfg.random_crop with
  | some (ch, cw, _, _) =>
    ∀ k, 0 ≤ (d.cropDraws k).1 ∧ (d.cropDraws k).1 ≤ |h - ch| ∧
      0 ≤ (d.cropDraws k).2 ∧ (d.cropDraws k).2 ≤ |w - cw|
  | none => True

/-- The batch cycler state of `generate`: the current (already shuffled)
dataset order and the cursor `current`. -/
structure CyclerState (α : Type) where
  data : List α
  cursor : ℕ

/-- One execution of the slicing logic at the top of the generate loop
(source lines 381-393): reshuffle (replace the order by a new permutation,
abstracted as `reshuffleFn`) and reset the cursor only when
`current >= len(self.filenames)`, then slice `[current : current + n]` and
advance the cursor by `n`.  Returns whether a reshuffle happened, the yielded
window, and the new state. -/
def nextBatch {α : Type} (reshuffleFn : List α → List α) (n : ℕ)
    (s : CyclerState α) : Bool × List α × CyclerState α :=
  if s.data.length ≤ s.cursor then
    let d := reshuffleFn s.data
    (true, (d.drop 0).take n, ⟨d, 0 + n⟩)
  else
    (false, (s.data.drop s.cursor).take n, ⟨s.data, s.cursor + n⟩)

/-- The windows of one full pass over the shuffled dataset: the slices
`[0:n]`, `[n:2n]`, ... that successive `nextBatch` calls take between two
reshuffles. -/
def passBatches {α : Type} (n : ℕ) (l : List α) : List (List α) :=
  if h : l.length = 0 ∨ n = 0 then [] else l.take n :: passBatches n (l.drop n)
termination_by l.length
decreasing_by
  push_neg at h
  simp only [List.length_drop]
  omega

/-- Descending insertion of an index, used to render Python's
`sorted(batch_items_to_remove, reverse=True)`. -/
def insertDesc (x : ℕ) : List ℕ → List ℕ
  | [] => [x]
  | y :: ys => if y ≤ x then x :: y :: ys else y :: insertDesc x ys

/-- Descending sort of the removal indices,
`sorted(batch_items_to_remove, reverse=True)`. -/
def sortDesc : List ℕ → List ℕ
  | [] => []
  | x :: xs => insertDesc x (sortDesc xs)

/-- Removal of the failed-crop batch items (source lines 694-697): the marked
indices are popped in descending order so the remaining indices stay valid. -/
def removeMarked {α : Type} (rem : List ℕ) (xs : List α) : List α :=
  (sortDesc rem).foldl (fun acc j => acc.eraseIdx j) xs

/-- The inference-mode yield (source line 714): images and labels with the
marked items removed, and the filename window as it was sliced before the
transform loop (source line 391), untouched by the removal. -/
def inferYield {α : Type} (files : List String) (imgs : List α)
    (labels : List (List Box)) (rem : List ℕ) :
    List α × List (List Box) × List String :=
  (removeMarked rem imgs, removeMarked rem labels, files)

/-- Observable events of one iteration of the generate loop. -/
inductive GenEvent where
  | loadImage (k : ℕ) : GenEvent
  | augmentDone : GenEvent
  | raiseNoEncoder : GenEvent
  | yieldBatch : GenEvent
  deriving Repr, DecidableEq

/-- The order of work in one iteration of the generate loop: every image of
the window is loaded first (source lines 386-388), then the transform loop
runs (lines 402-697), and only then does training mode check
`ssd_box_encoder is None` and raise `ValueError` (lines 699-701); otherwise
the batch is yielded (lines 712 and 714). -/
def generateIterationTrace (train hasEncoder : Bool) (nImgs : ℕ) :
    List GenEvent :=
  ((List.range nImgs).map GenEvent.loadImage) ++ [GenEvent.augmentDone] ++
    (if train && !hasEncoder then [GenEvent.raiseNoEncoder]
     else [GenEvent.yieldBatch])

-- Claim C3: the clip-and-filter survival boundary.

/-- C3: in every clip-and-filter step a box is kept iff
`area_after > include_thresh * area_before` when `include_thresh == 0`, and
iff `area_after >= include_thresh * area_before` otherwise; consequently a
box clipped to zero area is always dropped at `include_thresh = 0`, and a box
needing no clamping (`area_after = area_before`) always survives at
`include_thresh = 1`. -/
theorem spec_c3_threshold_boundary (t : ℚ) (beforeA afterA : ℤ) :
    (t = 0 → (keep t beforeA afterA = true ↔
      t * (beforeA : ℚ) < (afterA : ℚ))) ∧
    (t ≠ 0 → (keep t beforeA afterA = true ↔
      t * (beforeA : ℚ) ≤ (afterA : ℚ))) ∧
    keep 0 beforeA 0 = false ∧
    keep 1 afterA afterA = true := by
  refine ⟨?_, ?_, ?_, ?_⟩
  · intro ht
    unfold keep
    rw [if_pos ht]
    simp
  · intro ht
    unfold keep
    rw [if_neg ht]
    simp
  · unfold keep
    simp
  · unfold keep
    norm_num

/-- Witness for C3 at concrete inputs. -/
theorem spec_c3_threshold_boundary_witness :
    keep 0 5 7 = true ∧ keep 0 5 0 = false ∧ keep 1 6 6 = true :=
  ⟨((spec_c3_threshold_boundary 0 5 7).1 rfl).mpr (by norm_num),
   (spec_c3_threshold_boundary 0 5 0).2.2.1,
   (spec_c3_threshold_boundary 1 6 6).2.2.2⟩

-- Claim C7: horizontal flip is an involution on image and boxes.

/-- C7: applying the horizontal flip transform twice returns the original
image and the original box coordinates exactly: the pixel-row reversal and
the remap `new_xmin = width - old_xmax`, `new_xmax = width - old_xmin` are
involutions. -/
theorem spec_c7_flip_involution {α : Type} (img : List (List α)) (w : ℤ)
    (b : Box) :
    flipImage (flipImage img) = img ∧ flipBox w (flipBox w b) = b := by
  constructor
  · unfold flipImage
    rw [List.map_map]
    simp [Function.comp_def]
  · unfold flipBox
    cases b
    simp

theorem truncRat_intCast (n : ℤ) : truncRat ((n : ℤ) : ℚ) = n := by
  unfold truncRat
  split_ifs
  · exact Int.floor_intCast n
  · exact Int.ceil_intCast n

theorem scaleCoord_exact (nd od x v : ℤ) (hod : od ≠ 0) (h : x * nd = v * od) :
    scaleCoord nd od x = v := by
  unfold scaleCoord
  have hodQ : ((od : ℚ)) ≠ 0 := Int.cast_ne_zero.mpr hod
  have hq : ((x : ℚ)) * ((nd : ℚ) / (od : ℚ)) = ((v : ℤ) : ℚ) := by
    field_simp
    exact_mod_cast h
  rw [hq, truncRat_intCast]

-- Claim C10: resize scaling with truncation toward zero.

/-- C10: the resize step scales `(xmin, xmax)` by `new_width / old_width` and
`(ymin, ymax)` by `new_height / old_height`, truncating toward zero; a
100-wide, 50-high image with box `(10, 20, 5, 15)` resized to `(200, 100)`
yields `(20, 40, 10, 30)`. -/
theorem spec_c10_resize_scaling (c : ℤ) :
    resizeBox 200 100 100 50 ⟨c, 10, 20, 5, 15⟩ = ⟨c, 20, 40, 10, 30⟩ ∧
    ∀ (nw nh ow oh : ℤ) (b : Box),
      (resizeBox nw nh ow oh b).xmin
          = truncRat ((b.xmin : ℚ) * ((nw : ℚ) / (ow : ℚ))) ∧
      (resizeBox nw nh ow oh b).xmax
          = truncRat ((b.xmax : ℚ) * ((nw : ℚ) / (ow : ℚ))) ∧
      (resizeBox nw nh ow oh b).ymin
          = truncRat ((b.ymin : ℚ) * ((nh : ℚ) / (oh : ℚ))) ∧
      (resizeBox nw nh ow oh b).ymax
          = truncRat ((b.ymax : ℚ) * ((nh : ℚ) / (oh : ℚ))) := by
  constructor
  · show Box.mk c (scaleCoord 200 100 10) (scaleCoord 200 100 20)
      (scaleCoord 100 50 5) (scaleCoord 100 50 15) = Box.mk c 20 40 10 30
    have h1 : scaleCoord 200 100 10 = 20 :=
      scaleCoord_exact 200 100 10 20 (by norm_num) (by norm_num)
    have h2 : scaleCoord 200 100 20 = 40 :=
      scaleCoord_exact 200 100 20 40 (by norm_num) (by norm_num)
    have h3 : scaleCoord 100 50 5 = 10 :=
      scaleCoord_exact 100 50 5 10 (by norm_num) (by norm_num)
    have h4 : scaleCoord 100 50 15 = 30 :=
      scaleCoord_exact 100 50 15 30 (by norm_num) (by norm_num)
    rw [h1, h2, h3, h4]
  · intro nw nh ow oh b
    exact ⟨rfl, rfl, rfl, rfl⟩

-- Claim C2: shadowed option values are called, raising TypeError.

/-- C2: whenever the brightness, flip or scale branch fires for an image,
`generate` raises `TypeError` before yielding the batch, because the tuple or
float option shadows the module-level helper of the same name and is invoked
as a function; the per-image chain returns an error and no state. -/
theorem spec_c2_shadowing_type_error (cfg : GenConfig) (d : Draws) (h w : ℤ)
    (boxes : List Box)
    (htaken : brightnessTaken cfg d = true ∨ flipTaken cfg d = true ∨
      scaleTaken cfg d = true) :
    processImage cfg d h w boxes = .error .typeError := by
  by_cases hb : brightnessTaken cfg d = true
  · simp [processImage, hb]
  · by_cases hf : flipTaken cfg d = true
    · simp [processImage, hb, hf]
    · by_cases hs : scaleTaken cfg d = true
      · simp [processImage, hb, hf, hs]
      · rcases htaken with hx | hx | hx <;> simp_all

/-- Witness for C2: a configuration with `flip = 0.5` whose draw fires the
branch. -/
theorem spec_c2_shadowing_type_error_witness :
    processImage
      ⟨false, none, some (1/2), none, none, none, none, false, true, 3/10⟩
      ⟨0, 1, 0, fun _ => (0, 0)⟩ 4 4 [] = .error .typeError :=
  spec_c2_shadowing_type_error _ _ 4 4 []
    (Or.inr (Or.inl (by norm_num [flipTaken])))

-- Claim C9: the missing-encoder check does not happen before batch work.

/-- C9 counterexample: in train mode without an encoder, the first generate
iteration loads and augments the one-image window before raising, so the
configuration error is not reported before batch work begins. -/
theorem spec_c9_counterexample :
    generateIterationTrace true false 1
        = [.loadImage 0, .augmentDone, .raiseNoEncoder] ∧
    (generateIterationTrace true false 1).head? ≠ some .raiseNoEncoder := by
  constructor
  · decide
  · decide

/-- C9 amended: requesting train mode without an encoder raises `ValueError`
on the first iteration before any batch is yielded, but only after the whole
first window has been loaded and run through the augmentation loop. -/
theorem spec_c9_encoder_check_after_batch_work (n : ℕ) :
    generateIterationTrace true false n
        = ((List.range n).map GenEvent.loadImage)
          ++ [GenEvent.augmentDone, GenEvent.raiseNoEncoder] ∧
    GenEvent.yieldBatch ∉ generateIterationTrace true false n := by
  unfold generateIterationTrace
  refine ⟨by simp, ?_⟩
  intro hmem
  simp at hmem

-- Claim C8: in infer mode the filenames of removed images stay in the yield.

/-- C8 counterexample: with a two-image window whose first image is marked
for removal, the yielded image list has one element but the yielded filename
list still has two, so they do not correspond one-to-one. -/
theorem spec_c8_counterexample :
    ((inferYield ["a", "b"] ([10, 20] : List ℕ) [[], []] [0]).1).length = 1 ∧
    ((inferYield ["a", "b"] ([10, 20] : List ℕ) [[], []] [0]).2.2).length = 2 := by
  constructor
  · rfl
  · rfl

/-- C8 amended: the yielded filename list is always the unfiltered window
slice, untouched by the removal of crop-failed images, so it corresponds
one-to-one with the yielded images exactly when no image was removed. -/
theorem spec_c8_filenames_unfiltered {α : Type} (files : List String)
    (imgs : List α) (labels : List (List Box)) (rem : List ℕ) :
    (inferYield files imgs labels rem).2.2 = files ∧
    (rem = [] → (inferYield files imgs labels rem).1 = imgs ∧
      (inferYield files imgs labels rem).2.1 = labels) := by
  refine ⟨rfl, ?_⟩
  rintro rfl
  exact ⟨rfl, rfl⟩

/-- Witness for the amended C8 at a concrete removal-free batch. -/
theorem spec_c8_filenames_unfiltered_witness :
    (inferYield ["a"] ([5] : List ℕ) [[]] []).2.2 = ["a"] ∧
    (inferYield ["a"] ([5] : List ℕ) [[]] []).1 = [5] :=
  ⟨(spec_c8_filenames_unfiltered ["a"] [5] [[]] []).1,
   ((spec_c8_filenames_unfiltered ["a"] [5] [[]] []).2 rfl).1⟩

-- Claim C5: the cycler reshuffles late and yields a short final window.

/-- C5 counterexample: with a 5-sample dataset, batch size 2 and cursor 4,
`cursor + n` exceeds the dataset size, yet no reshuffle happens and a batch
of 1 sample (not 2) is yielded. -/
theorem spec_c5_counterexample :
    (nextBatch (id : List ℕ → List ℕ) 2 ⟨[0, 1, 2, 3, 4], 4⟩).1 = false ∧
    ((nextBatch (id : List ℕ → List ℕ) 2 ⟨[0, 1, 2, 3, 4], 4⟩).2.1).length = 1 ∧
    ([0, 1, 2, 3, 4] : List ℕ).length < 4 + 2 := by
  refine ⟨rfl, rfl, by norm_num⟩

/-- C5 amended: `generate` reshuffles and resets the cursor exactly when the
cursor has reached the dataset size, and slicing clamps to the dataset end,
so the final window of a pass may have fewer than `n` samples and is yielded
rather than dropped. -/
theorem spec_c5_reshuffle_on_exhaustion {α : Type} (f : List α → List α)
    (n : ℕ) (s : CyclerState α) :
    ((nextBatch f n s).1 = true ↔ s.data.length ≤ s.cursor) ∧
    ((nextBatch f n s).1 = false →
      ((nextBatch f n s).2.1).length = min n (s.data.length - s.cursor)) ∧
    ((nextBatch f n s).1 = true →
      ((nextBatch f n s).2.1).length = min n (f s.data).length) := by
  unfold nextBatch
  by_cases hle : s.data.length ≤ s.cursor
  · rw [if_pos hle]
    refine ⟨by simpa using hle, by simp, ?_⟩
    intro _
    simp [List.length_take]
  · rw [if_neg hle]
    refine ⟨by simpa using hle, ?_, by simp⟩
    intro _
    simp [List.length_take, List.length_drop]

/-- Witness for the amended C5: at cursor 4 of a 5-sample dataset no
reshuffle happens and the yielded window length is `min 2 (5 - 4) = 1`. -/
theorem spec_c5_reshuffle_on_exhaustion_witness :
    ((nextBatch (id : List ℕ → List ℕ) 2 ⟨[0, 1, 2, 3, 4], 4⟩).2.1).length
      = min 2 (([0, 1, 2, 3, 4] : List ℕ).length - 4) :=
  (spec_c5_reshuffle_on_exhaustion (id : List ℕ → List ℕ) 2
    ⟨[0, 1, 2, 3, 4], 4⟩).2.1 rfl

-- Claim C6: pass completeness of the cycler.

theorem passBatches_join {α : Type} (n : ℕ) (hn : n ≠ 0) (l : List α) :
    (passBatches n l).flatten = l := by
  rw [passBatches]
  split_ifs with h
  · rcases h with h | h
    · rw [List.length_eq_zero.mp h]
      rfl
    · exact absurd h hn
  · rw [List.flatten_cons, passBatches_join n hn (l.drop n)]
    exact List.take_append_drop n l
termination_by l.length
decreasing_by
  push_neg at h
  simp only [List.length_drop]
  omega

/-- C6: over the windows of one pass the batches concatenate exactly to the
shuffled dataset, so when the shuffled dataset has no duplicate entries each
sample appears exactly once before the next reshuffle: every index is yielded
once per pass before any repeats. -/
theorem spec_c6_pass_completeness {α : Type} [DecidableEq α] (perm : List α)
    (n : ℕ) (hn : 1 ≤ n) :
    (passBatches n perm).flatten = perm ∧
    (perm.Nodup → ∀ x ∈ perm, ((passBatches n perm).flatten).count x = 1) := by
  have hj := passBatches_join n (by omega) perm
  refine ⟨hj, ?_⟩
  intro hnd x hx
  rw [hj]
  exact List.count_eq_one_of_mem hnd hx

/-- Witness for C6 on a 3-sample dataset with batch size 2. -/
theorem spec_c6_pass_completeness_witness :
    (passBatches 2 ([0, 1, 2] : List ℕ)).flatten = [0, 1, 2] ∧
    (passBatches 2 ([0, 1, 2] : List ℕ)).flatten.count 0 = 1 :=
  ⟨(spec_c6_pass_completeness [0, 1, 2] 2 (by norm_num)).1,
   (spec_c6_pass_completeness [0, 1, 2] 2 (by norm_num)).2 (by decide) 0
     (by decide)⟩

-- Claim C4: crop retry termination.

theorem cropTrial_nil (ch cw : ℤ) (limit : Bool) (thresh : ℚ)
    (h w cy cx : ℤ) : cropTrial ch cw limit thresh h w cy cx [] = [] := by
  unfold cropTrial limitFilter
  split_ifs <;> rfl

theorem cropLoopAux_trials_le (ch cw : ℤ) (min1 maxT : ℕ) (limit : Bool)
    (thresh : ℚ) (draws : ℕ → ℤ × ℤ) (h w : ℤ) (boxes : List Box) :
    ∀ r counter,
      (cropLoopAux ch cw min1 maxT limit thresh draws h w boxes
        counter r).trials ≤ counter + r := by
  intro r
  induction r with
  | zero =>
    intro counter
    simp [cropLoopAux]
  | succ r ih =>
    intro counter
    simp only [cropLoopAux]
    split_ifs
    · show counter + 1 ≤ counter + (r + 1)
      omega
    · show counter + 1 ≤ counter + (r + 1)
      omega
    · show counter + 1 ≤ counter + (r + 1)
      omega
    · calc (cropLoopAux ch cw min1 maxT limit thresh draws h w boxes
            (counter + 1) r).trials ≤ counter + 1 + r := ih (counter + 1)
        _ = counter + (r + 1) := by omega

theorem cropLoopAux_nil_boxes (ch cw : ℤ) (maxT : ℕ) (limit : Bool)
    (thresh : ℚ) (draws : ℕ → ℤ × ℤ) (h w : ℤ) :
    ∀ r counter, counter + r = maxT → 1 ≤ r →
      cropLoopAux ch cw 1 maxT limit thresh draws h w [] counter r
        = ⟨maxT, none, true⟩ := by
  intro r
  induction r with
  | zero =>
    intro counter _ h2
    omega
  | succ r ih =>
    intro counter hsum _
    simp only [cropLoopAux, cropTrial_nil, List.length_nil]
    rw [if_neg (by norm_num), if_neg (by norm_num)]
    by_cases hend : maxT ≤ counter + 1
    · rw [if_pos hend]
      have hceq : counter + 1 = maxT := by omega
      rw [hceq]
    · rw [if_neg hend]
      exact ih (counter + 1) (by omega) (by omega)

/-- C4: with `random_crop = (h, w, 1, N)` the trial loop performs at most `N`
trials; and (amended) for `N >= 1`, an image with zero boxes deterministically
performs exactly `N` trials, accepts no crop, and is marked for removal from
the batch. -/
theorem spec_c4_crop_retry_termination (ch cw : ℤ) (N : ℕ) (limit : Bool)
    (thresh : ℚ) (draws : ℕ → ℤ × ℤ) (h w : ℤ) (boxes : List Box) :
    (cropLoop ch cw 1 N limit thresh draws h w boxes).trials ≤ N ∧
    (boxes = [] → 1 ≤ N →
      cropLoop ch cw 1 N limit thresh draws h w boxes = ⟨N, none, true⟩) := by
  constructor
  · have := cropLoopAux_trials_le ch cw 1 N limit thresh draws h w boxes N 0
    simpa [cropLoop] using this
  · rintro rfl hN
    unfold cropLoop
    exact cropLoopAux_nil_boxes ch cw N limit thresh draws h w N 0
      (by omega) hN

/-- Witness for C4 with three allowed trials and a zero-box image. -/
theorem spec_c4_crop_retry_termination_witness :
    (cropLoop 2 2 1 3 true (3/10) (fun _ => (0, 0)) 4 4 []).trials ≤ 3 ∧
    cropLoop 2 2 1 3 true (3/10) (fun _ => (0, 0)) 4 4 [] = ⟨3, none, true⟩ :=
  ⟨(spec_c4_crop_retry_termination 2 2 3 true (3/10) (fun _ => (0, 0))
      4 4 []).1,
   (spec_c4_crop_retry_termination 2 2 3 true (3/10) (fun _ => (0, 0))
      4 4 []).2 rfl (by norm_num)⟩

/-- C4 counterexample: with `max_trials = 0` the loop body never runs, so a
zero-box image performs zero trials and is NOT marked for removal,
contradicting the claim at `N = 0`. -/
theorem spec_c4_counterexample :
    (cropLoop 2 2 1 0 true (3/10) (fun _ => (0, 0)) 4 4 []).removed = false ∧
    (cropLoop 2 2 1 0 true (3/10) (fun _ => (0, 0)) 4 4 []).trials = 0 :=
  ⟨rfl, rfl⟩

-- Claim C1: the box invariant through the pipeline.

theorem limitXY_inBounds (cw ch : ℤ) (hcw : 1 ≤ cw) (hch : 1 ≤ ch) (b : Box)
    (hx : b.xmin ≤ b.xmax) (hy : b.ymin ≤ b.ymax) :
    inBounds cw ch (limitXY cw ch b) := by
  unfold inBounds limitXY limitX limitY
  simp only
  exact ⟨limitTo_nonneg cw _ hcw, limitTo_mono cw _ _ hx, limitTo_lt cw _ hcw,
    limitTo_nonneg ch _ hch, limitTo_mono ch _ _ hy, limitTo_lt ch _ hch⟩

theorem limitY_inBounds (cw ch : ℤ) (hch : 1 ≤ ch) (b : Box)
    (hx0 : 0 ≤ b.xmin) (hx : b.xmin ≤ b.xmax) (hx1 : b.xmax < cw)
    (hy : b.ymin ≤ b.ymax) :
    inBounds cw ch (limitY ch b) := by
  unfold inBounds limitY
  simp only
  exact ⟨hx0, hx, hx1,
    limitTo_nonneg ch _ hch, limitTo_mono ch _ _ hy, limitTo_lt ch _ hch⟩

theorem limitX_inBounds (cw ch : ℤ) (hcw : 1 ≤ cw) (b : Box)
    (hx : b.xmin ≤ b.xmax)
    (hy0 : 0 ≤ b.ymin) (hy : b.ymin ≤ b.ymax) (hy1 : b.ymax < ch) :
    inBounds cw ch (limitX cw b) := by
  unfold inBounds limitX
  simp only
  exact ⟨limitTo_nonneg cw _ hcw, limitTo_mono cw _ _ hx, limitTo_lt cw _ hcw,
    hy0, hy, hy1⟩

theorem cropTrial_inBounds (ch cw : ℤ) (thresh : ℚ) (h w cy cx : ℤ)
    (boxes : List Box) (hch : 1 ≤ ch) (hcw : 1 ≤ cw)
    (hcy0 : 0 ≤ cy) (hcy1 : cy ≤ |h - ch|)
    (hcx0 : 0 ≤ cx) (hcx1 : cx ≤ |w - cw|)
    (hin : ∀ b ∈ boxes, inBounds w h b) :
    ∀ b ∈ cropTrial ch cw true thresh h w cy cx boxes, inBounds cw ch b := by
  intro b hb
  unfold cropTrial at hb
  by_cases hyr : 0 ≤ h - ch
  · rw [if_pos hyr] at hb
    by_cases hxr : 0 ≤ w - cw
    · rw [if_pos hxr, if_pos rfl] at hb
      obtain ⟨st, hst, rfl⟩ := limitFilter_mem hb
      obtain ⟨a, ha, rfl⟩ := List.mem_map.mp hst
      have hA := hin a ha
      unfold inBounds at hA
      apply limitXY_inBounds cw ch hcw hch
      · simp only [shiftBox]
        omega
      · simp only [shiftBox]
        omega
    · rw [if_neg hxr, if_pos rfl] at hb
      obtain ⟨st, hst, rfl⟩ := limitFilter_mem hb
      obtain ⟨a, ha, rfl⟩ := List.mem_map.mp hst
      have hA := hin a ha
      unfold inBounds at hA
      rw [abs_of_neg (by omega : w - cw < 0)] at hcx1
      apply limitY_inBounds cw ch hch
      · simp only [shiftBox]
        omega
      · simp only [shiftBox]
        omega
      · simp only [shiftBox]
        omega
      · simp only [shiftBox]
        omega
  · rw [if_neg hyr] at hb
    rw [abs_of_neg (by omega : h - ch < 0)] at hcy1
    by_cases hxr : 0 ≤ w - cw
    · rw [if_pos hxr, if_pos rfl] at hb
      obtain ⟨st, hst, rfl⟩ := limitFilter_mem hb
      obtain ⟨a, ha, rfl⟩ := List.mem_map.mp hst
      have hA := hin a ha
      unfold inBounds at hA
      apply limitX_inBounds cw ch hcw
      · simp only [shiftBox]
        omega
      · simp only [shiftBox]
        omega
      · simp only [shiftBox]
        omega
      · simp only [shiftBox]
        omega
    · rw [if_neg hxr] at hb
      obtain ⟨a, ha, rfl⟩ := List.mem_map.mp hb
      have hA := hin a ha
      unfold inBounds at hA
      rw [abs_of_neg (by omega : w - cw < 0)] at hcx1
      unfold inBounds
      simp only [shiftBox]
      omega

theorem cropLoopAux_accepted_inv (ch cw : ℤ) (min1 maxT : ℕ) (thresh : ℚ)
    (draws : ℕ → ℤ × ℤ) (h w : ℤ) (boxes : List Box)
    (hch : 1 ≤ ch) (hcw : 1 ≤ cw)
    (hdr : ∀ k, 0 ≤ (draws k).1 ∧ (draws k).1 ≤ |h - ch| ∧
      0 ≤ (draws k).2 ∧ (draws k).2 ≤ |w - cw|)
    (hin : ∀ b ∈ boxes, inBounds w h b) :
    ∀ r counter h1 w1 bs1,
      (cropLoopAux ch cw min1 maxT true thresh draws h w boxes
        counter r).accepted = some (h1, w1, bs1) →
      h1 = ch ∧ w1 = cw ∧ ∀ b ∈ bs1, inBounds cw ch b := by
  intro r
  induction r with
  | zero =>
    intro counter h1 w1 bs1 hacc
    simp [cropLoopAux] at hacc
  | succ r ih =>
    intro counter h1 w1 bs1 hacc
    simp only [cropLoopAux] at hacc
    split_ifs at hacc
    · simp only [Option.some.injEq, Prod.mk.injEq] at hacc
      obtain ⟨he1, he2, he3⟩ := hacc
      subst he1
      subst he2
      refine ⟨rfl, rfl, ?_⟩
      rw [← he3]
      exact cropTrial_inBounds ch cw thresh h w (draws counter).1
        (draws counter).2 boxes hch hcw (hdr counter).1 (hdr counter).2.1
        (hdr counter).2.2.1 (hdr counter).2.2.2 hin
    · simp only [Option.some.injEq, Prod.mk.injEq] at hacc
      obtain ⟨he1, he2, he3⟩ := hacc
      subst he1
      subst he2
      refine ⟨rfl, rfl, ?_⟩
      rw [← he3]
      exact cropTrial_inBounds ch cw thresh h w (draws counter).1
        (draws counter).2 boxes hch hcw (hdr counter).1 (hdr counter).2.1
        (hdr counter).2.2.1 (hdr counter).2.2.2 hin
    · exact ih (counter + 1) h1 w1 bs1 hacc

theorem applyCropOutcome_inv (CH CW : ℤ) (st : PipeState) (out : CropOutcome)
    (hin : ∀ b ∈ st.boxes, inBounds st.w st.h b)
    (hsome : ∀ h1 w1 bs1, out.accepted = some (h1, w1, bs1) →
      h1 = CH ∧ w1 = CW ∧ ∀ b ∈ bs1, inBounds CW CH b) :
    (∀ b ∈ (applyCropOutcome st out).boxes,
      inBounds (applyCropOutcome st out).w (applyCropOutcome st out).h b) ∧
    (((applyCropOutcome st out).h = st.h ∧
        (applyCropOutcome st out).w = st.w) ∨
      ((applyCropOutcome st out).h = CH ∧
        (applyCropOutcome st out).w = CW)) := by
  unfold applyCropOutcome
  rcases hacc : out.accepted with _ | ⟨⟨h1, w1, bs1⟩⟩
  · exact ⟨hin, Or.inl ⟨rfl, rfl⟩⟩
  · obtain ⟨rfl, rfl, hb⟩ := hsome h1 w1 bs1 hacc
    exact ⟨hb, Or.inr ⟨rfl, rfl⟩⟩

theorem stageRandomCrop_inv (cfg : GenConfig) (d : Draws) (st : PipeState)
    (hlim : cfg.limit_boxes = true)
    (hrc : match cfg.random_crop with
      | some (ch, cw, _, _) => 1 ≤ ch ∧ 1 ≤ cw
      | none => True)
    (hdr : DrawsOK cfg d st.h st.w)
    (hin : ∀ b ∈ st.boxes, inBounds st.w st.h b) :
    (∀ b ∈ (stageRandomCrop cfg d st).boxes,
      inBounds (stageRandomCrop cfg d st).w (stageRandomCrop cfg d st).h b) ∧
    (((stageRandomCrop cfg d st).h = st.h ∧
        (stageRandomCrop cfg d st).w = st.w) ∨
      (∃ ch cw m tr, cfg.random_crop = some (ch, cw, m, tr) ∧
        (stageRandomCrop cfg d st).h = ch ∧
        (stageRandomCrop cfg d st).w = cw)) := by
  unfold stageRandomCrop
  rcases hopt : cfg.random_crop with _ | ⟨ch, cw, min1, maxT⟩
  · exact ⟨hin, Or.inl ⟨rfl, rfl⟩⟩
  · simp only [DrawsOK, hopt] at hdr
    simp only [hopt] at hrc
    rw [hlim]
    obtain ⟨hb, hd⟩ := applyCropOutcome_inv ch cw st
      (cropLoop ch cw min1 maxT true cfg.include_thresh d.cropDraws
        st.h st.w st.boxes) hin
      (fun h1 w1 bs1 hacc => cropLoopAux_accepted_inv ch cw min1 maxT
        cfg.include_thresh d.cropDraws st.h st.w st.boxes hrc.1 hrc.2
        hdr hin maxT 0 h1 w1 bs1 hacc)
    refine ⟨hb, ?_⟩
    rcases hd with hcase | hcase
    · exact Or.inl hcase
    · exact Or.inr ⟨ch, cw, min1, maxT, rfl, hcase.1, hcase.2⟩

theorem fixedCropShift_fields (t l : ℤ) (b : Box) :
    (fixedCropShift t l b).ymin = (if 0 < t then b.ymin - t else b.ymin) ∧
    (fixedCropShift t l b).ymax = (if 0 < t then b.ymax - t else b.ymax) ∧
    (fixedCropShift t l b).xmin = (if 0 < l then b.xmin - l else b.xmin) ∧
    (fixedCropShift t l b).xmax = (if 0 < l then b.xmax - l else b.xmax) := by
  simp only [fixedCropShift]
  split_ifs <;> exact ⟨rfl, rfl, rfl, rfl⟩

theorem fixedCropClamp_fields (t bt l r h1 w1 : ℤ) (b : Box) :
    (fixedCropClamp t bt l r h1 w1 b).ymin
      = (if 0 < bt then
           highClamp h1 (if 0 < t then lowClamp b.ymin else b.ymin)
         else (if 0 < t then lowClamp b.ymin else b.ymin)) ∧
    (fixedCropClamp t bt l r h1 w1 b).ymax
      = (if 0 < bt then
           highClamp h1 (if 0 < t then lowClamp b.ymax else b.ymax)
         else (if 0 < t then lowClamp b.ymax else b.ymax)) ∧
    (fixedCropClamp t bt l r h1 w1 b).xmin
      = (if 0 < r then
           highClamp w1 (if 0 < l then lowClamp b.xmin else b.xmin)
         else (if 0 < l then lowClamp b.xmin else b.xmin)) ∧
    (fixedCropClamp t bt l r h1 w1 b).xmax
      = (if 0 < r then
           highClamp w1 (if 0 < l then lowClamp b.xmax else b.xmax)
         else (if 0 < l then lowClamp b.xmax else b.xmax)) := by
  simp only [fixedCropClamp]
  split_ifs <;> exact ⟨rfl, rfl, rfl, rfl⟩

theorem fixedCrop_dims (t bt l r : ℤ) (limit : Bool) (thresh : ℚ)
    (h w : ℤ) (boxes : List Box) :
    (fixedCrop t bt l r limit thresh h w boxes).1 = h - (t + bt) ∧
    (fixedCrop t bt l r limit thresh h w boxes).2.1 = w - (l + r) := by
  unfold fixedCrop
  split_ifs <;> exact ⟨rfl, rfl⟩

theorem fixedCrop_inBounds (t bt l r : ℤ) (thresh : ℚ) (h w : ℤ)
    (boxes : List Box)
    (ht : 0 ≤ t) (hbt : 0 ≤ bt) (hl : 0 ≤ l) (hr : 0 ≤ r)
    (hyb : t + bt < h) (hxb : l + r < w)
    (hin : ∀ b ∈ boxes, inBounds w h b) :
    ∀ b ∈ (fixedCrop t bt l r true thresh h w boxes).2.2,
      inBounds (w - (l + r)) (h - (t + bt)) b := by
  intro b hb
  unfold fixedCrop at hb
  rw [if_pos rfl] at hb
  replace hb : b ∈ limitFilter
      (fixedCropClamp t bt l r (h - (t + bt)) (w - (l + r))) thresh
      (boxes.map (fixedCropShift t l)) := hb
  obtain ⟨s, hs, rfl⟩ := limitFilter_mem hb
  obtain ⟨a, ha, rfl⟩ := List.mem_map.mp hs
  have hA := hin a ha
  unfold inBounds at hA ⊢
  obtain ⟨hsy1, hsy2, hsx1, hsx2⟩ := fixedCropShift_fields t l a
  obtain ⟨hcy1, hcy2, hcx1, hcx2⟩ := fixedCropClamp_fields t bt l r
    (h - (t + bt)) (w - (l + r)) (fixedCropShift t l a)
  rw [hcy1, hcy2, hcx1, hcx2, hsy1, hsy2, hsx1, hsx2]
  obtain ⟨ha1, ha2, ha3, ha4, ha5, ha6⟩ := hA
  refine ⟨?_, ?_, ?_, ?_, ?_, ?_⟩ <;>
    · unfold lowClamp highClamp
      split_ifs <;> omega

theorem stageFixedCrop_inv (cfg : GenConfig) (st : PipeState)
    (hlim : cfg.limit_boxes = true)
    (hok : match cfg.crop with
      | some (t, bt, l, r) => 0 ≤ t ∧ 0 ≤ bt ∧ 0 ≤ l ∧ 0 ≤ r ∧
          t + bt < st.h ∧ l + r < st.w
      | none => True)
    (hin : ∀ b ∈ st.boxes, inBounds st.w st.h b) :
    (∀ b ∈ (stageFixedCrop cfg st).boxes,
      inBounds (stageFixedCrop cfg st).w (stageFixedCrop cfg st).h b) ∧
    (1 ≤ st.h → 1 ≤ st.w →
      1 ≤ (stageFixedCrop cfg st).h ∧ 1 ≤ (stageFixedCrop cfg st).w) := by
  unfold stageFixedCrop
  rcases hopt : cfg.crop with _ | ⟨t, bt, l, r⟩
  · exact ⟨hin, fun hh hw => ⟨hh, hw⟩⟩
  · simp only [hopt] at hok
    rw [hlim]
    obtain ⟨hd1, hd2⟩ := fixedCrop_dims t bt l r true cfg.include_thresh
      st.h st.w st.boxes
    constructor
    · intro b hb
      have hbb : b ∈ (fixedCrop t bt l r true cfg.include_thresh
          st.h st.w st.boxes).2.2 := hb
      have hres := fixedCrop_inBounds t bt l r cfg.include_thresh st.h st.w
        st.boxes hok.1 hok.2.1 hok.2.2.1 hok.2.2.2.1 hok.2.2.2.2.1
        hok.2.2.2.2.2 hin b hbb
      show inBounds
        (fixedCrop t bt l r true cfg.include_thresh st.h st.w st.boxes).2.1
        (fixedCrop t bt l r true cfg.include_thresh st.h st.w st.boxes).1 b
      rw [hd1, hd2]
      exact hres
    · intro _ _
      constructor
      · show 1 ≤ (fixedCrop t bt l r true cfg.include_thresh
          st.h st.w st.boxes).1
        rw [hd1]
        omega
      · show 1 ≤ (fixedCrop t bt l r true cfg.include_thresh
          st.h st.w st.boxes).2.1
        rw [hd2]
        omega

theorem stageResize_inv (cfg : GenConfig) (st : PipeState)
    (hok : match cfg.resize with
      | some (nw, nh) => 1 ≤ nw ∧ 1 ≤ nh
      | none => True)
    (hh : 1 ≤ st.h) (hw : 1 ≤ st.w)
    (hin : ∀ b ∈ st.boxes, inBounds st.w st.h b) :
    ∀ b ∈ (stageResize cfg st).boxes,
      inBounds (stageResize cfg st).w (stageResize cfg st).h b := by
  unfold stageResize
  rcases hopt : cfg.resize with _ | ⟨nw, nh⟩
  · exact hin
  · simp only [hopt] at hok
    intro b hb
    replace hb : b ∈ st.boxes.map (resizeBox nw nh st.w st.h) := hb
    obtain ⟨a, ha, rfl⟩ := List.mem_map.mp hb
    have hA := hin a ha
    unfold inBounds at hA
    obtain ⟨ha1, ha2, ha3, ha4, ha5, ha6⟩ := hA
    show inBounds nw nh (resizeBox nw nh st.w st.h a)
    unfold inBounds resizeBox
    refine ⟨?_, ?_, ?_, ?_, ?_, ?_⟩
    · exact (scaleCoord_bounds nw st.w a.xmin hok.1 hw ha1 (by omega)).1
    · exact scaleCoord_mono nw st.w a.xmin a.xmax hok.1 hw ha1 ha2
    · exact (scaleCoord_bounds nw st.w a.xmax hok.1 hw (by omega) ha3).2
    · exact (scaleCoord_bounds nh st.h a.ymin hok.2 hh ha4 (by omega)).1
    · exact scaleCoord_mono nh st.h a.ymin a.ymax hok.2 hh ha4 ha5
    · exact (scaleCoord_bounds nh st.h a.ymax hok.2 hh (by omega) ha6).2

/-- C1: for every per-image run of the transform chain with
`limit_boxes = true`, a wellformed geometry configuration, in-range crop
draws, and input boxes inside the incoming image extents, every box of the
resulting state lies inside the current image extents of that state; since
each stage of `processImage` establishes the invariant for its own output
(lemmas `cropTrial_inBounds`, `fixedCrop_inBounds`, `stageResize_inv`), the
invariant holds after every transform step of the pipeline, and the
brightness, flip and scale branches never complete a batch when taken. -/
theorem spec_c1_box_invariant (cfg : GenConfig) (d : Draws) (h w : ℤ)
    (boxes : List Box) (st : PipeState)
    (hlim : cfg.limit_boxes = true)
    (hok : ConfigOK cfg h w)
    (hdr : DrawsOK cfg d h w)
    (hin : ∀ b ∈ boxes, inBounds w h b)
    (hres : processImage cfg d h w boxes = .ok st) :
    ∀ b ∈ st.boxes, inBounds st.w st.h b := by
  unfold processImage at hres
  split_ifs at hres
  injection hres with hst
  obtain ⟨hh1, hw1, hrc, hcr, hrs⟩ := hok
  have hdr0 : DrawsOK cfg d (PipeState.mk h w boxes false).h
      (PipeState.mk h w boxes false).w := hdr
  have hin0 : ∀ b ∈ (PipeState.mk h w boxes false).boxes,
      inBounds (PipeState.mk h w boxes false).w
        (PipeState.mk h w boxes false).h b := hin
  obtain ⟨hb1, hd1⟩ := stageRandomCrop_inv cfg d ⟨h, w, boxes, false⟩
    hlim hrc hdr0 hin0
  have hpos1 : 1 ≤ (stageRandomCrop cfg d ⟨h, w, boxes, false⟩).h ∧
      1 ≤ (stageRandomCrop cfg d ⟨h, w, boxes, false⟩).w := by
    rcases hd1 with ⟨e1, e2⟩ | ⟨ch, cw, m, tr, heq, e1, e2⟩
    · rw [e1, e2]
      exact ⟨hh1, hw1⟩
    · rw [e1, e2]
      simp only [heq] at hrc
      exact hrc
  have hokc1 : match cfg.crop with
      | some (t, bt, l, r) => 0 ≤ t ∧ 0 ≤ bt ∧ 0 ≤ l ∧ 0 ≤ r ∧
          t + bt < (stageRandomCrop cfg d ⟨h, w, boxes, false⟩).h ∧
          l + r < (stageRandomCrop cfg d ⟨h, w, boxes, false⟩).w
      | none => True := by
    rcases hcopt : cfg.crop with _ | ⟨t, bt, l, r⟩
    · trivial
    · simp only [hcopt] at hcr
      rcases hd1 with ⟨e1, e2⟩ | ⟨ch, cw, m, tr, heq, e1, e2⟩
      · rw [e1, e2]
        exact ⟨hcr.1, hcr.2.1, hcr.2.2.1, hcr.2.2.2.1, hcr.2.2.2.2.1,
          hcr.2.2.2.2.2.1⟩
      · rw [e1, e2]
        have hinner := hcr.2.2.2.2.2.2
        simp only [heq] at hinner
        exact ⟨hcr.1, hcr.2.1, hcr.2.2.1, hcr.2.2.2.1, hinner.1, hinner.2⟩
  obtain ⟨hb2, hpos2⟩ := stageFixedCrop_inv cfg
    (stageRandomCrop cfg d ⟨h, w, boxes, false⟩) hlim hokc1 hb1
  obtain ⟨hp2h, hp2w⟩ := hpos2 hpos1.1 hpos1.2
  have hfin := stageResize_inv cfg
    (stageFixedCrop cfg (stageRandomCrop cfg d ⟨h, w, boxes, false⟩))
    hrs hp2h hp2w hb2
  rw [← hst]
  exact hfin

/-- Witness for C1 on a conversion-free configuration and one in-bounds
box. -/
theorem spec_c1_box_invariant_witness :
    inBounds (PipeState.mk 4 4 [Box.mk 0 1 2 1 2] false).w
      (PipeState.mk 4 4 [Box.mk 0 1 2 1 2] false).h (Box.mk 0 1 2 1 2) :=
  spec_c1_box_invariant
    ⟨false, none, none, none, none, none, none, false, true, 3/10⟩
    ⟨0, 0, 0, fun _ => (0, 0)⟩ 4 4 [Box.mk 0 1 2 1 2]
    (PipeState.mk 4 4 [Box.mk 0 1 2 1 2] false)
    rfl ⟨by norm_num, by norm_num, trivial, trivial, trivial⟩
    trivial (by decide) rfl (Box.mk 0 1 2 1 2) (by decide)
